import Mathlib

/-!
Verification of the client-side tool-calling orchestrator
(`src/hooks/useTrace.ts`, the lesson pages `responses.tsx`).

The embedding translates the TypeScript source into Lean:

* `pushTrace`, `traceBegin`/`traceDone` embed the `useTrace` hook
  (`pushTrace` is the upsert-by-id over the `traceSteps` array; `trace`
  writes an in-progress step and returns a closure, rendered here as the
  pair of functions `traceBegin` and `traceDone`, the latter taking the
  captured `id`/`label` explicitly).
* `geocodeLocation`, `handlerGeo`, `execCall`, `execCalls`, `runTurn`
  embed the non-streaming lesson pages (Lesson 02, `src/unnamed/part_000`,
  which shares its `handleSend` structure with Lesson 01): the service
  call, the function-call dispatch loop and the two-request round trip.
  External collaborators (the OpenAI client, `JSON.parse`, `fetch`) are
  oracle function parameters; a thrown JS exception is `Except.error`.
* `StreamEvent`, `stepEvent`, `runStreamTurn` embed the streaming page
  (Lesson 05, `src/pages/lesson-05/responses.tsx`).

Timestamps (`Date.now()` in the source) are external clock reads; they are
modelled as a single sampled `now : Nat` per turn, since no claim depends
on timestamp values.
-/

/-- Status of a trace step; the source's string union
`'in-progress' | 'completed' | 'error'` (the spec calls `in-progress`
"pending"). -/
inductive Status where
  | inProgress
  | completed
  | error
deriving DecidableEq, Repr

/-- `TraceStep` from `src/unnamed/part_000` (types): `{ id, label, status,
timestamp, data?: unknown }`.  The opaque `unknown` payload is the type
parameter `α`; an omitted payload is `none`. -/
structure TraceStep (α : Type) where
  id : String
  label : String
  status : Status
  timestamp : Nat
  data : Option α
deriving DecidableEq, Repr

/-- `pushTrace` from `useTrace` (`src/unnamed/part_005`): find the first
entry with the same `id`; if found replace it in that slot, otherwise
append at the end.  This is the direct functional rendering of the
source's `findIndex` / copy-and-set / spread-append. -/
def pushTrace {α : Type} : List (TraceStep α) → TraceStep α → List (TraceStep α)
  | [], step => [step]
  | s :: prev, step =>
      if s.id = step.id then step :: prev else s :: pushTrace prev step

/-- The first half of `trace(id, label, data?)` from `useTrace`: write the
in-progress step. -/
def traceBegin {α : Type} (tr : List (TraceStep α)) (id label : String)
    (data : Option α) (now : Nat) : List (TraceStep α) :=
  pushTrace tr ⟨id, label, Status.inProgress, now, data⟩

/-- The closure returned by `trace(id, label, data?)`: invoked as
`done(completedLabel?, completedData?)`, it writes a completed step under
the captured `id`, with the label defaulting to the captured `label`.
The captured values are explicit arguments here. -/
def traceDone {α : Type} (id label : String) (completedLabel : Option String)
    (completedData : Option α) (now : Nat) (tr : List (TraceStep α)) :
    List (TraceStep α) :=
  pushTrace tr ⟨id, completedLabel.getD label, Status.completed, now, completedData⟩

theorem pushTrace_not_mem {α : Type} (l : List (TraceStep α)) (step : TraceStep α)
    (h : step.id ∉ l.map TraceStep.id) : pushTrace l step = l ++ [step] := by
  induction l with
  | nil => rfl
  | cons s prev ih =>
      simp only [List.map_cons, List.mem_cons, not_or] at h
      simp [pushTrace, Ne.symm h.1, ih h.2]

theorem pushTrace_replace {α : Type} (l1 l2 : List (TraceStep α))
    (old step : TraceStep α) (hid : old.id = step.id)
    (h1 : step.id ∉ l1.map TraceStep.id) :
    pushTrace (l1 ++ old :: l2) step = l1 ++ step :: l2 := by
  induction l1 with
  | nil => simp [pushTrace, hid]
  | cons s prev ih =>
      simp only [List.map_cons, List.mem_cons, not_or] at h1
      simp [pushTrace, Ne.symm h1.1, ih h1.2]

theorem map_id_pushTrace {α : Type} (l : List (TraceStep α)) (step : TraceStep α) :
    (pushTrace l step).map TraceStep.id =
      (if step.id ∈ l.map TraceStep.id then l.map TraceStep.id
       else l.map TraceStep.id ++ [step.id]) := by
  induction l with
  | nil => simp [pushTrace]
  | cons s prev ih =>
      by_cases h : s.id = step.id
      · simp [pushTrace, h]
      · by_cases hmem : step.id ∈ prev.map TraceStep.id <;>
          simp [pushTrace, h, ih, hmem, Ne.symm h]

theorem find?_pushTrace {α : Type} (l : List (TraceStep α)) (step : TraceStep α) :
    (pushTrace l step).find? (fun t => t.id == step.id) = some step := by
  induction l with
  | nil => simp [pushTrace, List.find?]
  | cons s prev ih =>
      by_cases h : s.id = step.id
      · simp [pushTrace, h, List.find?]
      · simpa [pushTrace, List.find?, h] using ih

/-- C7: Upsert is idempotent — performing `pushTrace` twice with the same
step leaves the ledger exactly as a single `pushTrace` does. -/
theorem pushTrace_idempotent {α : Type} (l : List (TraceStep α)) (s : TraceStep α) :
    pushTrace (pushTrace l s) s = pushTrace l s := by
  induction l with
  | nil => simp [pushTrace]
  | cons t prev ih =>
      by_cases h : t.id = s.id
      · simp [pushTrace, h]
      · simp [pushTrace, h, ih]

/-- C8: `pushTrace` with a fresh id appends at the end; `pushTrace` with an
id already present (first occurring at a given slot) replaces that entry in
place, leaving every other entry and all positions unchanged; and it
preserves the no-duplicate-ids invariant of the ledger. -/
theorem pushTrace_order_and_unique {α : Type} (l : List (TraceStep α))
    (step : TraceStep α) :
    (step.id ∉ l.map TraceStep.id → pushTrace l step = l ++ [step]) ∧
    (∀ l1 old l2, l = l1 ++ old :: l2 → old.id = step.id →
      step.id ∉ l1.map TraceStep.id → pushTrace l step = l1 ++ step :: l2) ∧
    ((l.map TraceStep.id).Nodup → ((pushTrace l step).map TraceStep.id).Nodup) := by
  refine ⟨fun h => pushTrace_not_mem l step h, ?_, ?_⟩
  · intro l1 old l2 hl hid h1
    subst hl
    exact pushTrace_replace l1 l2 old step hid h1
  · intro hnd
    rw [map_id_pushTrace]
    by_cases hmem : step.id ∈ l.map TraceStep.id
    · simpa [hmem] using hnd
    · simp [hmem, List.nodup_append, hnd]

/-- Witness for C8, on a concrete two-step ledger: a fresh id is appended
at the end, an existing id is replaced in its slot, and distinct ids stay
distinct. -/
theorem pushTrace_order_and_unique_witness :
    pushTrace [(⟨"a", "A", Status.inProgress, 0, none⟩ : TraceStep Nat),
               ⟨"b", "B", Status.inProgress, 1, none⟩]
        ⟨"c", "C", Status.completed, 2, none⟩ =
      [⟨"a", "A", Status.inProgress, 0, none⟩,
       ⟨"b", "B", Status.inProgress, 1, none⟩,
       ⟨"c", "C", Status.completed, 2, none⟩] ∧
    pushTrace [(⟨"a", "A", Status.inProgress, 0, none⟩ : TraceStep Nat),
               ⟨"b", "B", Status.inProgress, 1, none⟩]
        ⟨"a", "A2", Status.completed, 2, none⟩ =
      [⟨"a", "A2", Status.completed, 2, none⟩,
       ⟨"b", "B", Status.inProgress, 1, none⟩] ∧
    (((pushTrace [(⟨"a", "A", Status.inProgress, 0, none⟩ : TraceStep Nat),
                  ⟨"b", "B", Status.inProgress, 1, none⟩]
        ⟨"a", "A2", Status.completed, 2, none⟩).map TraceStep.id).Nodup) :=
  ⟨(pushTrace_order_and_unique _ _).1 (by decide),
   (pushTrace_order_and_unique
      [(⟨"a", "A", Status.inProgress, 0, none⟩ : TraceStep Nat),
       ⟨"b", "B", Status.inProgress, 1, none⟩]
      ⟨"a", "A2", Status.completed, 2, none⟩).2.1
     [] ⟨"a", "A", Status.inProgress, 0, none⟩
     [⟨"b", "B", Status.inProgress, 1, none⟩] rfl rfl (by decide),
   (pushTrace_order_and_unique
      [(⟨"a", "A", Status.inProgress, 0, none⟩ : TraceStep Nat),
       ⟨"b", "B", Status.inProgress, 1, none⟩]
      ⟨"a", "A2", Status.completed, 2, none⟩).2.2 (by decide)⟩

/-- C9 counterexample: the completion closure returned by `trace` always
writes status `completed` — invoking it with an error payload (here the
payload string "error: boom") still yields a completed step, not an error
step, contradicting the claim's "or status error when invoked with an
error payload". -/
theorem trace_done_error_payload_completed_cex :
    ((traceDone "s1" "Working" none (some "error: boom") 5
        (traceBegin ([] : List (TraceStep String)) "s1" "Working" none 0)).find?
      (fun t => t.id == "s1")).map TraceStep.status = some Status.completed ∧
    Status.completed ≠ Status.error := by
  constructor
  · rfl
  · decide

/-- C9 (amended): `trace(id, label, payload?)` writes an in-progress
(pending) step under `id`, and the returned closure — invoked later with
an optional label and payload, on whatever the ledger then is — writes a
step under the same captured `id` with status `completed` (always
`completed`, regardless of the payload; an error payload does not produce
an error-status step), the label defaulting to the original `label` when
none is given. -/
theorem trace_begin_done_spec {α : Type} (tr tr2 : List (TraceStep α))
    (id label : String) (data : Option α) (now now2 : Nat)
    (completedLabel : Option String) (completedData : Option α) :
    (traceBegin tr id label data now).find? (fun t => t.id == id) =
      some ⟨id, label, Status.inProgress, now, data⟩ ∧
    (traceDone id label completedLabel completedData now2 tr2).find?
        (fun t => t.id == id) =
      some ⟨id, completedLabel.getD label, Status.completed, now2, completedData⟩ :=
  ⟨find?_pushTrace tr ⟨id, label, Status.inProgress, now, data⟩,
   find?_pushTrace tr2
     ⟨id, completedLabel.getD label, Status.completed, now2, completedData⟩⟩

/-- C10: after `trace(id, label, data0)` and a later invocation
`done(completedLabel?, completedData?)` of the returned closure, the step
stored under `id` carries exactly `completedData` as its data (`none` when
the argument is omitted) — the pending step's original `data0` is never
preserved — while the label does default to the original `label`. -/
theorem trace_done_data_replaces {α : Type} (tr : List (TraceStep α))
    (id label : String) (data0 : Option α) (now now2 : Nat)
    (completedLabel : Option String) (completedData : Option α) :
    (traceDone id label completedLabel completedData now2
        (traceBegin tr id label data0 now)).find? (fun t => t.id == id) =
      some ⟨id, completedLabel.getD label, Status.completed, now2, completedData⟩ :=
  find?_pushTrace (traceBegin tr id label data0 now)
    ⟨id, completedLabel.getD label, Status.completed, now2, completedData⟩

/-- A JSON value, as produced by the external `JSON.parse` and consumed by
the handlers.  JS numbers are modelled as rationals (no claim depends on
floating-point behaviour). -/
inductive Json where
  | null
  | bool (b : Bool)
  | num (q : Rat)
  | str (s : String)
  | arr (elems : List Json)
  | obj (fields : List (String × Json))

/-- Property access `j.key` on a parsed JSON object, `none` when absent or
when `j` is not an object (JS would yield `undefined`). -/
def jsGet (j : Json) (key : String) : Option Json :=
  match j with
  | Json.obj fields => fields.lookup key
  | _ => none

/-- `functionArgs.location` as used by the geocode handler.  A missing or
non-string field is rendered as the string "undefined" (which is what the
JS template literal would interpolate into the request URL); no claim
depends on this coercion. -/
def argLocation (args : Json) : String :=
  match jsGet args "location" with
  | some (Json.str s) => s
  | _ => "undefined"

/-- One row of the Nominatim response array, after the external
`parseFloat` on its `lat`/`lon` strings. -/
structure GeoRow where
  lat : Rat
  lon : Rat
  display_name : String

/-- Outcome of the external `fetch` + `res.json()` pair inside
`geocodeLocation` (`src/unnamed/part_000`, lines 99-118): the promise can
reject (a thrown exception — the handler has no try/catch), resolve to a
falsy value, or resolve to an array of rows. -/
inductive GeoFetch where
  | throws (msg : String)
  | nullJson
  | rows (data : List GeoRow)

/-- `geocodeLocation` from `src/unnamed/part_000`: a thrown fetch
propagates (`Except.error`); a falsy or empty result returns the
`{ error: ... }` descriptor; otherwise the first row is converted to the
result object. -/
def geocodeLocation (location : String) (fetch : GeoFetch) : Except String Json :=
  match fetch with
  | GeoFetch.throws msg => Except.error msg
  | GeoFetch.nullJson =>
      Except.ok (Json.obj
        [("error", Json.str ("No results found for \"" ++ location ++ "\""))])
  | GeoFetch.rows [] =>
      Except.ok (Json.obj
        [("error", Json.str ("No results found for \"" ++ location ++ "\""))])
  | GeoFetch.rows (r :: _) =>
      Except.ok (Json.obj
        [("location", Json.str location),
         ("latitude", Json.num r.lat),
         ("longitude", Json.num r.lon),
         ("display_name", Json.str r.display_name)])

/-- The name-to-handler routing of the Lesson 02 page (`src/unnamed/
part_000`, lines 245-250): `if (functionName === 'geocode_location')
result = await geocodeLocation(...)`, any other name leaves `result`
undefined (`Except.ok none`).  `geo` is the fetch oracle, keyed by the
location argument. -/
def handlerGeo (geo : String → GeoFetch) : String → Json → Except String (Option Json) :=
  fun name args =>
    if name = "geocode_location" then
      match geocodeLocation (argLocation args) (geo (argLocation args)) with
      | Except.error e => Except.error e
      | Except.ok j => Except.ok (some j)
    else
      Except.ok none

/-- A `function_call` output item, with its `call_id`, `name` and raw
`arguments` JSON text. -/
structure FnCall where
  call_id : String
  name : String
  arguments : String
deriving DecidableEq, Repr

/-- The role of a conversation message (`src/unnamed/part_000` types). -/
inductive Role where
  | user
  | assistant
  | function
deriving DecidableEq, Repr

/-- A conversation message.  The inspector-only fields (`functionCall`,
`responseOutput`, `rawResponse`) are presentation metadata and are
omitted; no claim depends on them. -/
structure Message where
  role : Role
  content : String
deriving DecidableEq, Repr

/-- A protocol item of the request `input` list / response `output` list.
The model's output items are pushed verbatim into the next input list, so
one type serves both.  `functionCallOutput`'s payload is the JSON value
whose `JSON.stringify` the source sends (`none` models the JS `undefined`
produced by stringifying an undefined result). -/
inductive Item where
  | message (role : Role) (content : String)
  | functionCall (call_id : String) (name : String) (arguments : String)
  | functionCallOutput (call_id : String) (output : Option Json)
  | other

/-- The filter `item.type === 'function_call'` combined with the loop's
redundant inner guard of the same condition. -/
def asFnCall (item : Item) : Option FnCall :=
  match item with
  | Item.functionCall call_id name arguments => some ⟨call_id, name, arguments⟩
  | _ => none

/-- A (non-streaming) Model Service response: the `output` item list and
the `output_text` convenience concatenation. -/
structure ModelResponse where
  output : List Item
  output_text : String

/-- `newMessages.map((msg) => ({ role, content }))` — the conversation
messages rendered as request input items. -/
def toInputItems (msgs : List Message) : List Item :=
  msgs.map (fun m => Item.message m.role m.content)

/-- Trace-step payloads written by the non-streaming turn (the `data`
fields of the source's `pushTrace`/`trace` calls). -/
inductive TraceData where
  | reqInfo (model : String) (messageCount : Nat)
  | outputItems (xs : List Item)
  | callsInfo (xs : List (String × String × Json))
  | execInfo (fn : String) (args : Json)
  | execResult (fn : String) (args : Json) (result : Option Json)
  | inputCount (n : Nat)

/-- The per-call dispatch step (`src/unnamed/part_000`, lines 237-274,
same shape as Lesson 01 lines 190-227): `JSON.parse` the arguments (a
parse failure throws), then route by name.  `parse` is the external
`JSON.parse` oracle; `handler` the name-routing (e.g. `handlerGeo`).
`Except.error` is an exception escaping the per-call code. -/
def execCall (handler : String → Json → Except String (Option Json))
    (parse : String → Except String Json) (c : FnCall) :
    Except String (Option Json) :=
  match parse c.arguments with
  | Except.error e => Except.error e
  | Except.ok args => handler c.name args

/-- Whether the dispatch of a call completed without a thrown exception. -/
def execOk (e : Except String (Option Json)) : Bool :=
  match e with
  | Except.ok _ => true
  | Except.error _ => false

/-- The payload of a completed dispatch (`none` for the unreachable
thrown case). -/
def okPayload (e : Except String (Option Json)) : Option Json :=
  match e with
  | Except.ok p => p
  | Except.error _ => none

/-- The argument-parsing inside the "Model requested function call(s)"
trace write: `functionCalls.map(fc => ({name, call_id, arguments:
JSON.parse(fc.arguments)}))` — the first parse failure throws. -/
def parseAllArgs (parse : String → Except String Json) :
    List FnCall → Except String (List (String × String × Json))
  | [] => Except.ok []
  | c :: cs =>
      match parse c.arguments with
      | Except.error e => Except.error e
      | Except.ok j =>
          match parseAllArgs parse cs with
          | Except.error e => Except.error e
          | Except.ok rest => Except.ok ((c.name, c.call_id, j) :: rest)

/-- The tool-execution loop (`src/unnamed/part_000`, lines 237-274): for
each call, parse the arguments (throws propagate), write the `exec-` id
pending step via `trace`, run the handler (throws propagate), write the
completed step via the returned closure, and collect the
`function_call_output` item.  Returns the ledger as mutated so far
together with either the thrown message or the result items in call
order. -/
def execCalls (handler : String → Json → Except String (Option Json))
    (parse : String → Except String Json) (now : Nat) :
    List FnCall → List (TraceStep TraceData) →
      List (TraceStep TraceData) × Except String (List Item)
  | [], tr => (tr, Except.ok [])
  | c :: cs, tr =>
      match parse c.arguments with
      | Except.error e => (tr, Except.error e)
      | Except.ok args =>
          let tr1 := traceBegin tr ("exec-" ++ c.call_id)
            ("Executing " ++ c.name ++ "()")
            (some (TraceData.execInfo c.name args)) now
          match handler c.name args with
          | Except.error e => (tr1, Except.error e)
          | Except.ok payload =>
              let tr2 := traceDone ("exec-" ++ c.call_id)
                ("Executing " ++ c.name ++ "()")
                (some (c.name ++ "() returned"))
                (some (TraceData.execResult c.name args payload)) now tr1
              match execCalls handler parse now cs tr2 with
              | (tr3, Except.error e) => (tr3, Except.error e)
              | (tr3, Except.ok items) =>
                  (tr3, Except.ok (Item.functionCallOutput c.call_id payload :: items))

/-- The observable outcome of one `handleSend` turn: the final messages
list, the trace ledger, and the `input` of each Model Service request
sent (in order). -/
structure TurnOut where
  messages : List Message
  traceSteps : List (TraceStep TraceData)
  requests : List (List Item)

/-- One non-streaming turn: `handleSend` of the Lesson 02 page
(`src/unnamed/part_000`, lines 128-330; Lesson 01's `handleSend` has the
identical structure with the `calculate_tip` routing in place of
`handler`).  `svc` is the `client.responses.create` oracle (an
`Except.error` is a rejected promise); `parse` is `JSON.parse`.  The
`catch` block appends the recovered `Error: ...` assistant message and
performs no trace write. -/
def runTurn (handler : String → Json → Except String (Option Json))
    (parse : String → Except String Json)
    (svc : List Item → Except String ModelResponse)
    (msgs : List Message) (input : String) (now : Nat) : TurnOut :=
  let newMessages := msgs ++ [(⟨Role.user, input⟩ : Message)]
  let input1 := toInputItems newMessages
  let tr0 := pushTrace ([] : List (TraceStep TraceData))
    ⟨"initial-request", "Sending request to model", Status.inProgress, now,
     some (TraceData.reqInfo "gpt-5" newMessages.length)⟩
  match svc input1 with
  | Except.error e =>
      ⟨newMessages ++ [(⟨Role.assistant, "Error: " ++ e⟩ : Message)], tr0, [input1]⟩
  | Except.ok resp1 =>
      let calls := resp1.output.filterMap asFnCall
      if calls.isEmpty then
        let tr1 := pushTrace tr0
          ⟨"initial-request", "Model responded (no tool calls)", Status.completed,
           now, some (TraceData.outputItems resp1.output)⟩
        ⟨newMessages ++
           [(⟨Role.assistant,
              if resp1.output_text = "" then "No response" else resp1.output_text⟩ :
             Message)], tr1, [input1]⟩
      else
        match parseAllArgs parse calls with
        | Except.error e =>
            ⟨newMessages ++ [(⟨Role.assistant, "Error: " ++ e⟩ : Message)], tr0,
             [input1]⟩
        | Except.ok parsed =>
            let tr1 := pushTrace tr0
              ⟨"initial-request", "Model requested function call(s)",
               Status.completed, now, some (TraceData.callsInfo parsed)⟩
            match execCalls handler parse now calls tr1 with
            | (tr2, Except.error e) =>
                ⟨newMessages ++ [(⟨Role.assistant, "Error: " ++ e⟩ : Message)], tr2,
                 [input1]⟩
            | (tr2, Except.ok results) =>
                let inputList := input1 ++ resp1.output ++ results
                let tr3 := traceBegin tr2 "second-request"
                  "Sending function results to model"
                  (some (TraceData.inputCount inputList.length)) now
                match svc inputList with
                | Except.error e =>
                    ⟨newMessages ++ [(⟨Role.assistant, "Error: " ++ e⟩ : Message)],
                     tr3, [input1, inputList]⟩
                | Except.ok resp2 =>
                    let tr4 := traceDone "second-request"
                      "Sending function results to model"
                      (some "Final response received")
                      (some (TraceData.outputItems resp2.output)) now tr3
                    ⟨newMessages ++
                       [(⟨Role.assistant,
                          if resp2.output_text = "" then "No response"
                          else resp2.output_text⟩ : Message)],
                     tr4, [input1, inputList]⟩

/-- A `JSON.parse` oracle that rejects every argument text (e.g. the text
is not valid JSON). -/
def c1parseReject : String → Except String Json :=
  fun _ => Except.error "Unexpected token"

/-- A `JSON.parse` oracle returning the object `{"location": "Paris"}`. -/
def c1parseParis : String → Except String Json :=
  fun _ => Except.ok (Json.obj [("location", Json.str "Paris")])

/-- A fetch oracle whose request always rejects (network failure). -/
def c1geoThrow : String → GeoFetch := fun _ => GeoFetch.throws "fetch failed"

/-- A fetch oracle that always resolves to an empty result array. -/
def c1geoEmpty : String → GeoFetch := fun _ => GeoFetch.rows []

/-- A geocode call whose arguments text is not valid JSON. -/
def c1callBad : FnCall := ⟨"c1", "geocode_location", "not json"⟩

/-- A call whose name has no handler on the page. -/
def c1callUnknown : FnCall := ⟨"c2", "nonexistent_tool", "\x7b\x7d"⟩

/-- C1 counterexample: a `function_call` request whose arguments fail to
parse as JSON makes the dispatch step throw (`JSON.parse` raises and no
per-call recovery exists), rather than producing a result whose payload is
a structured error descriptor — so the fault escapes the dispatcher and
the claim is false. -/
theorem dispatch_bad_arguments_throws_cex :
    execCall (handlerGeo c1geoEmpty) c1parseReject c1callBad =
      Except.error "Unexpected token" ∧
    execOk (execCall (handlerGeo c1geoEmpty) c1parseReject c1callBad) = false := by
  constructor
  · rfl
  · rfl

/-- C1 (amended): in the dispatch step, (1) an arguments-parse failure
raises a fault that escapes the per-call dispatch (aborting the turn via
the outer catch) instead of becoming an error-descriptor payload; (2) a
handler-internal failure (the geocode fetch rejecting) likewise escapes as
a thrown fault; (3) an unknown tool name does not throw — the loop
continues and a result is sent back — but its payload is the serialization
of `undefined`, not a structured error descriptor; (4) only a
handler-recovered failure (geocode with an empty result set) yields a
structured `{ error: ... }` payload in the result. -/
theorem dispatch_error_paths :
    (∀ (parse : String → Except String Json) (geo : String → GeoFetch)
        (c : FnCall) (e : String), parse c.arguments = Except.error e →
        execCall (handlerGeo geo) parse c = Except.error e) ∧
    (∀ (parse : String → Except String Json) (geo : String → GeoFetch)
        (c : FnCall) (args : Json) (m : String),
        parse c.arguments = Except.ok args → c.name = "geocode_location" →
        geo (argLocation args) = GeoFetch.throws m →
        execCall (handlerGeo geo) parse c = Except.error m) ∧
    (∀ (parse : String → Except String Json) (geo : String → GeoFetch)
        (c : FnCall) (args : Json),
        parse c.arguments = Except.ok args → c.name ≠ "geocode_location" →
        execCall (handlerGeo geo) parse c = Except.ok none) ∧
    (∀ (parse : String → Except String Json) (geo : String → GeoFetch)
        (c : FnCall) (args : Json),
        parse c.arguments = Except.ok args → c.name = "geocode_location" →
        geo (argLocation args) = GeoFetch.rows [] →
        execCall (handlerGeo geo) parse c =
          Except.ok (some (Json.obj
            [("error",
              Json.str ("No results found for \"" ++ argLocation args ++ "\""))]))) := by
  refine ⟨?_, ?_, ?_, ?_⟩
  · intro parse geo c e hp
    simp [execCall, hp]
  · intro parse geo c args m hp hn hg
    simp [execCall, hp, handlerGeo, hn, geocodeLocation, hg]
  · intro parse geo c args hp hn
    simp [execCall, hp, handlerGeo, hn]
  · intro parse geo c args hp hn hg
    simp [execCall, hp, handlerGeo, hn, geocodeLocation, hg]

/-- Witness for C1 (amended), at concrete requests: the bad-JSON call
throws, the fetch-rejecting geocode call throws, the unknown tool yields
the undefined payload, and the empty geocode result yields the structured
error descriptor. -/
theorem dispatch_error_paths_witness :
    execCall (handlerGeo c1geoThrow) c1parseReject c1callBad =
      Except.error "Unexpected token" ∧
    execCall (handlerGeo c1geoThrow) c1parseParis c1callBad =
      Except.error "fetch failed" ∧
    execCall (handlerGeo c1geoEmpty) c1parseParis c1callUnknown =
      Except.ok none ∧
    execCall (handlerGeo c1geoEmpty) c1parseParis c1callBad =
      Except.ok (some (Json.obj
        [("error", Json.str "No results found for \"Paris\"")])) :=
  ⟨dispatch_error_paths.1 c1parseReject c1geoThrow c1callBad "Unexpected token" rfl,
   dispatch_error_paths.2.1 c1parseParis c1geoThrow c1callBad
     (Json.obj [("location", Json.str "Paris")]) "fetch failed" rfl rfl rfl,
   dispatch_error_paths.2.2.1 c1parseParis c1geoEmpty c1callUnknown
     (Json.obj [("location", Json.str "Paris")]) rfl (by decide),
   dispatch_error_paths.2.2.2 c1parseParis c1geoEmpty c1callBad
     (Json.obj [("location", Json.str "Paris")]) rfl rfl rfl⟩

theorem parseAllArgs_ok (handler : String → Json → Except String (Option Json))
    (parse : String → Except String Json) (cs : List FnCall)
    (h : ∀ c ∈ cs, execOk (execCall handler parse c) = true) :
    ∃ ps, parseAllArgs parse cs = Except.ok ps := by
  induction cs with
  | nil => exact ⟨[], rfl⟩
  | cons c cs ih =>
      have hc := h c (List.mem_cons_self c cs)
      cases hp : parse c.arguments with
      | error e => simp [execCall, hp, execOk] at hc
      | ok j =>
          obtain ⟨ps, hps⟩ := ih (fun c' hm => h c' (List.mem_cons_of_mem c hm))
          exact ⟨(c.name, c.call_id, j) :: ps, by simp [parseAllArgs, hp, hps]⟩

theorem execCalls_snd (handler : String → Json → Except String (Option Json))
    (parse : String → Except String Json) (now : Nat) (cs : List FnCall)
    (h : ∀ c ∈ cs, execOk (execCall handler parse c) = true)
    (tr : List (TraceStep TraceData)) :
    (execCalls handler parse now cs tr).2 =
      Except.ok (cs.map (fun c =>
        Item.functionCallOutput c.call_id (okPayload (execCall handler parse c)))) := by
  induction cs generalizing tr with
  | nil => rfl
  | cons c cs ih =>
      have hc := h c (List.mem_cons_self c cs)
      have hrest : ∀ c' ∈ cs, execOk (execCall handler parse c') = true :=
        fun c' hm => h c' (List.mem_cons_of_mem c hm)
      cases hp : parse c.arguments with
      | error e => simp [execCall, hp, execOk] at hc
      | ok j =>
          cases hh : handler c.name j with
          | error e => simp [execCall, hp, hh, execOk] at hc
          | ok p =>
              simp only [execCalls, hp, hh]
              split
              next tr3 e heq =>
                have hs := congrArg Prod.snd heq
                rw [ih hrest] at hs
                simp at hs
              next tr3 items heq =>
                have hs := congrArg Prod.snd heq
                rw [ih hrest] at hs
                simp only [Except.ok.injEq] at hs
                subst hs
                simp [execCall, hp, hh, okPayload]

/-- C2: when a response carries tool-call requests and each dispatch
completes without throwing, the next request's `input` list is exactly the
prior conversation items, then the model's round output items verbatim,
then one `function_call_output` per request in the order the requests
appeared. -/
theorem round_input_ordering (handler : String → Json → Except String (Option Json))
    (parse : String → Except String Json)
    (svc : List Item → Except String ModelResponse)
    (msgs : List Message) (input : String) (now : Nat) (resp1 : ModelResponse)
    (h1 : svc (toInputItems (msgs ++ [(⟨Role.user, input⟩ : Message)])) =
      Except.ok resp1)
    (h2 : resp1.output.filterMap asFnCall ≠ [])
    (h3 : ∀ c ∈ resp1.output.filterMap asFnCall,
      execOk (execCall handler parse c) = true) :
    (runTurn handler parse svc msgs input now).requests =
      [toInputItems (msgs ++ [(⟨Role.user, input⟩ : Message)]),
       toInputItems (msgs ++ [(⟨Role.user, input⟩ : Message)]) ++ resp1.output ++
         (resp1.output.filterMap asFnCall).map (fun c =>
           Item.functionCallOutput c.call_id (okPayload (execCall handler parse c)))] := by
  obtain ⟨ps, hps⟩ := parseAllArgs_ok handler parse _ h3
  have hne : (resp1.output.filterMap asFnCall).isEmpty = false := by
    cases hc : resp1.output.filterMap asFnCall with
    | nil => exact absurd hc h2
    | cons a l => rfl
  simp only [runTurn, h1, hne, hps, Bool.false_eq_true, if_false]
  split
  next tr2 e heq =>
    have hs := congrArg Prod.snd heq
    rw [execCalls_snd handler parse now _ h3] at hs
    simp at hs
  next tr2 results heq =>
    have hs := congrArg Prod.snd heq
    rw [execCalls_snd handler parse now _ h3] at hs
    simp only [Except.ok.injEq] at hs
    subst hs
    split <;> simp

/-- First-round response of the concrete C2 scenario: one geocode call. -/
def c2respTool : ModelResponse :=
  ⟨[Item.functionCall "call1" "geocode_location" "\x7b\"location\":\"Paris\"\x7d"], ""⟩

/-- Service oracle for the C2 scenario: the one-item first request is
answered with the tool call, the (longer) follow-up with the final text. -/
def c2svc : List Item → Except String ModelResponse :=
  fun items =>
    if items.length = 1 then Except.ok c2respTool
    else Except.ok ⟨[Item.message Role.assistant "Paris is at 48, 2."],
                    "Paris is at 48, 2."⟩

/-- `JSON.parse` oracle for the C2 scenario. -/
def c2parse : String → Except String Json :=
  fun s =>
    if s = "\x7b\"location\":\"Paris\"\x7d" then
      Except.ok (Json.obj [("location", Json.str "Paris")])
    else Except.error "Unexpected token"

/-- Fetch oracle for the C2 scenario: Paris resolves to one row. -/
def c2geo : String → GeoFetch :=
  fun loc =>
    if loc = "Paris" then GeoFetch.rows [⟨48, 2, "Paris, France"⟩]
    else GeoFetch.rows []

/-- Witness for C2 at the concrete scenario: the second request's input is
the prior user message, the verbatim tool-call output item, then its
`function_call_output`. -/
theorem round_input_ordering_witness :
    (runTurn (handlerGeo c2geo) c2parse c2svc [] "Where is Paris?" 0).requests =
      [toInputItems ([] ++ [(⟨Role.user, "Where is Paris?"⟩ : Message)]),
       toInputItems ([] ++ [(⟨Role.user, "Where is Paris?"⟩ : Message)]) ++
         c2respTool.output ++
         (c2respTool.output.filterMap asFnCall).map (fun c =>
           Item.functionCallOutput c.call_id
             (okPayload (execCall (handlerGeo c2geo) c2parse c)))] :=
  round_input_ordering (handlerGeo c2geo) c2parse c2svc [] "Where is Paris?" 0
    c2respTool rfl (by decide) (by decide)

/-- Service oracle answering with a response that has no tool calls and an
empty `output_text`. -/
def c3svc : List Item → Except String ModelResponse :=
  fun _ => Except.ok ⟨[], ""⟩

/-- Service oracle answering with a plain text response. -/
def c3svcText : List Item → Except String ModelResponse :=
  fun _ => Except.ok ⟨[Item.message Role.assistant "Hello!"], "Hello!"⟩

/-- Handler/parse placeholders for the zero-tool scenarios (never
reached). -/
def c3handler : String → Json → Except String (Option Json) :=
  fun _ _ => Except.ok none

/-- `JSON.parse` placeholder for the zero-tool scenarios (never
reached). -/
def c3parse : String → Except String Json :=
  fun _ => Except.error "unused"

/-- C3 counterexample: a zero-tool response whose `output_text` is the
empty string terminates after one round, but the final assistant message
content is the placeholder "No response" (`response.output_text || 'No
response'`), not the response's (empty) text — so the content-equality
part of the claim fails. -/
theorem zero_tool_empty_text_cex :
    (runTurn c3handler c3parse c3svc [] "hi" 0).messages.getLast? =
      some (⟨Role.assistant, "No response"⟩ : Message) ∧
    (runTurn c3handler c3parse c3svc [] "hi" 0).requests.length = 1 ∧
    (runTurn c3handler c3parse c3svc [] "hi" 0).messages.getLast? ≠
      some (⟨Role.assistant, ""⟩ : Message) := by
  refine ⟨rfl, rfl, ?_⟩
  decide

/-- C3 (amended): a response with no tool-call-request items terminates
the turn after exactly one round (a single service request), and — when
the response's text is non-empty — the final assistant message content
equals that text (an empty text is replaced by the "No response"
placeholder). -/
theorem zero_tool_termination (handler : String → Json → Except String (Option Json))
    (parse : String → Except String Json)
    (svc : List Item → Except String ModelResponse)
    (msgs : List Message) (input : String) (now : Nat) (resp : ModelResponse)
    (h1 : svc (toInputItems (msgs ++ [(⟨Role.user, input⟩ : Message)])) =
      Except.ok resp)
    (h2 : resp.output.filterMap asFnCall = [])
    (h3 : resp.output_text ≠ "") :
    (runTurn handler parse svc msgs input now).requests =
      [toInputItems (msgs ++ [(⟨Role.user, input⟩ : Message)])] ∧
    (runTurn handler parse svc msgs input now).messages =
      (msgs ++ [(⟨Role.user, input⟩ : Message)]) ++
        [(⟨Role.assistant, resp.output_text⟩ : Message)] := by
  constructor <;> simp [runTurn, h1, h2, h3]

/-- Witness for C3 (amended): a concrete "Hello!" zero-tool response ends
the turn in one round with final content "Hello!". -/
theorem zero_tool_termination_witness :
    (runTurn c3handler c3parse c3svcText [] "hi" 0).requests =
      [toInputItems ([] ++ [(⟨Role.user, "hi"⟩ : Message)])] ∧
    (runTurn c3handler c3parse c3svcText [] "hi" 0).messages =
      ([] ++ [(⟨Role.user, "hi"⟩ : Message)]) ++
        [(⟨Role.assistant,
           (ModelResponse.mk [Item.message Role.assistant "Hello!"] "Hello!").output_text⟩ :
          Message)] :=
  zero_tool_termination c3handler c3parse c3svcText [] "hi" 0
    ⟨[Item.message Role.assistant "Hello!"], "Hello!"⟩ rfl rfl (by decide)

/-- Service oracle whose call always rejects. -/
def c6svc : List Item → Except String ModelResponse :=
  fun _ => Except.error "boom"

/-- Handler placeholder for the failure scenario (never reached). -/
def c6handler : String → Json → Except String (Option Json) :=
  fun _ _ => Except.ok none

/-- `JSON.parse` placeholder for the failure scenario (never reached). -/
def c6parse : String → Except String Json :=
  fun _ => Except.error "unused"

/-- C6 counterexample: when the service call fails, the recovered
`Error: ...` assistant message is appended, but the catch block performs
no trace write — the most recent (active) trace step stays `in-progress`,
it is not marked with error status as the claim requires. -/
theorem service_failure_trace_not_error_cex :
    (runTurn c6handler c6parse c6svc [] "hi" 0).traceSteps.map TraceStep.status =
      [Status.inProgress] ∧
    (runTurn c6handler c6parse c6svc [] "hi" 0).messages.getLast? =
      some (⟨Role.assistant, "Error: boom"⟩ : Message) ∧
    Status.inProgress ≠ Status.error := by
  refine ⟨rfl, rfl, ?_⟩
  decide

/-- C6 (amended): a Model Service call failure aborts the round — exactly
one request was attempted, no retry — and appends the recovered
human-readable `Error: ...` message as the turn's final assistant message;
the ledger, however, is left untouched by the failure: its only step is
the request step still in `in-progress` status, not marked error. -/
theorem service_failure_aborts_turn
    (handler : String → Json → Except String (Option Json))
    (parse : String → Except String Json)
    (svc : List Item → Except String ModelResponse)
    (msgs : List Message) (input : String) (now : Nat) (e : String)
    (h : svc (toInputItems (msgs ++ [(⟨Role.user, input⟩ : Message)])) =
      Except.error e) :
    (runTurn handler parse svc msgs input now).messages =
      (msgs ++ [(⟨Role.user, input⟩ : Message)]) ++
        [(⟨Role.assistant, "Error: " ++ e⟩ : Message)] ∧
    (runTurn handler parse svc msgs input now).traceSteps =
      [⟨"initial-request", "Sending request to model", Status.inProgress, now,
        some (TraceData.reqInfo "gpt-5" (msgs.length + 1))⟩] ∧
    (runTurn handler parse svc msgs input now).requests =
      [toInputItems (msgs ++ [(⟨Role.user, input⟩ : Message)])] := by
  refine ⟨?_, ?_, ?_⟩ <;> simp [runTurn, h, pushTrace]

/-- Witness for C6 (amended) at the concrete failing service. -/
theorem service_failure_aborts_turn_witness :
    (runTurn c6handler c6parse c6svc [] "hi" 0).messages =
      ([] ++ [(⟨Role.user, "hi"⟩ : Message)]) ++
        [(⟨Role.assistant, "Error: " ++ "boom"⟩ : Message)] ∧
    (runTurn c6handler c6parse c6svc [] "hi" 0).traceSteps =
      [⟨"initial-request", "Sending request to model", Status.inProgress, 0,
        some (TraceData.reqInfo "gpt-5" (List.length ([] : List Message) + 1))⟩] ∧
    (runTurn c6handler c6parse c6svc [] "hi" 0).requests =
      [toInputItems ([] ++ [(⟨Role.user, "hi"⟩ : Message)])] :=
  service_failure_aborts_turn c6handler c6parse c6svc [] "hi" 0 "boom" rfl

/-- The streamed events handled by the Lesson 05 page
(`src/pages/lesson-05/responses.tsx`, lines 117-184): web-search lifecycle
events, text deltas, the terminal completed event carrying the full final
response, and the ignored default case. -/
inductive StreamEvent where
  | webSearchInProgress (item_id : String)
  | webSearchSearching (item_id : String)
  | webSearchCompleted (item_id : String)
  | outputTextDelta (delta : String)
  | responseCompleted (response : ModelResponse)
  | otherEvent

/-- The turn state mutated by the streaming event loop: the messages list
(whose last entry is the in-progress assistant message) and the trace
ledger. -/
structure StreamState where
  messages : List Message
  traceSteps : List (TraceStep TraceData)

/-- `updated[updated.length - 1] = f(last)` — replace the last message.
(The source never reaches this with an empty list: an assistant message is
seeded before the loop.) -/
def updateLast : List Message → (Message → Message) → List Message
  | [], _ => []
  | [m], f => [f m]
  | m :: m2 :: ms, f => m :: updateLast (m2 :: ms) f

/-- One iteration of the `for await (const event of stream)` switch
(`src/pages/lesson-05/responses.tsx`): web-search lifecycle events upsert
a `web-search-` step; a delta appends to the last message's content; the
completed event overwrites the content with `finalResponse.output_text ||
last.content` and writes the two completed trace steps; unrecognized
events are ignored. -/
def stepEvent (now : Nat) (st : StreamState) (e : StreamEvent) : StreamState :=
  match e with
  | StreamEvent.webSearchInProgress i =>
      StreamState.mk st.messages
        (pushTrace st.traceSteps
          ⟨"web-search-" ++ i, "Web search initiated", Status.inProgress, now, none⟩)
  | StreamEvent.webSearchSearching i =>
      StreamState.mk st.messages
        (pushTrace st.traceSteps
          ⟨"web-search-" ++ i, "Searching the web…", Status.inProgress, now, none⟩)
  | StreamEvent.webSearchCompleted i =>
      StreamState.mk st.messages
        (pushTrace st.traceSteps
          ⟨"web-search-" ++ i, "Web search completed", Status.completed, now, none⟩)
  | StreamEvent.outputTextDelta d =>
      StreamState.mk
        (updateLast st.messages (fun m => { m with content := m.content ++ d }))
        st.traceSteps
  | StreamEvent.responseCompleted r =>
      StreamState.mk
        (updateLast st.messages (fun m =>
          { m with content :=
              if r.output_text = "" then m.content else r.output_text }))
        (pushTrace
          (pushTrace st.traceSteps
            ⟨"stream-request", "Streaming started", Status.completed, now, none⟩)
          ⟨"stream-complete", "Response complete", Status.completed, now,
           some (TraceData.outputItems r.output)⟩)
  | StreamEvent.otherEvent => st

/-- Fold the event sequence through `stepEvent` in order. -/
def runStreamEvents (now : Nat) : StreamState → List StreamEvent → StreamState
  | st, [] => st
  | st, e :: es => runStreamEvents now (stepEvent now st e) es

/-- One streaming turn (`handleSend` of Lesson 05) up to the end of the
event sequence: clear the trace, append the user message, write the
in-progress `stream-request` step, seed the empty assistant message, then
fold the events. -/
def runStreamTurn (msgs : List Message) (input : String)
    (events : List StreamEvent) (now : Nat) : StreamState :=
  runStreamEvents now
    ⟨(msgs ++ [(⟨Role.user, input⟩ : Message)]) ++ [(⟨Role.assistant, ""⟩ : Message)],
     pushTrace ([] : List (TraceStep TraceData))
       ⟨"stream-request", "Streaming response…", Status.inProgress, now,
        some (TraceData.reqInfo "gpt-5" (msgs ++ [(⟨Role.user, input⟩ : Message)]).length)⟩⟩
    events

theorem updateLast_ne_nil (l : List Message) (f : Message → Message)
    (h : l ≠ []) : updateLast l f ≠ [] := by
  match l with
  | [] => exact absurd rfl h
  | [m] => simp [updateLast]
  | m :: m2 :: ms => simp [updateLast]

theorem updateLast_getLast? (l : List Message) (f : Message → Message) :
    (updateLast l f).getLast? = l.getLast?.map f := by
  match l with
  | [] => rfl
  | [m] => rfl
  | m :: m2 :: ms =>
      have ih := updateLast_getLast? (m2 :: ms) f
      simp only [updateLast]
      cases hx : updateLast (m2 :: ms) f with
      | nil => exact absurd hx (updateLast_ne_nil (m2 :: ms) f (by simp))
      | cons x xs =>
          rw [List.getLast?_cons_cons, ← hx, ih, List.getLast?_cons_cons]

theorem stepEvent_messages_ne_nil (now : Nat) (st : StreamState) (e : StreamEvent)
    (h : st.messages ≠ []) : (stepEvent now st e).messages ≠ [] := by
  cases e with
  | webSearchInProgress i => simpa [stepEvent] using h
  | webSearchSearching i => simpa [stepEvent] using h
  | webSearchCompleted i => simpa [stepEvent] using h
  | outputTextDelta d => simpa [stepEvent] using updateLast_ne_nil st.messages _ h
  | responseCompleted r => simpa [stepEvent] using updateLast_ne_nil st.messages _ h
  | otherEvent => simpa [stepEvent] using h

theorem runStreamEvents_messages_ne_nil (now : Nat) (es : List StreamEvent)
    (st : StreamState) (h : st.messages ≠ []) :
    (runStreamEvents now st es).messages ≠ [] := by
  induction es generalizing st with
  | nil => simpa [runStreamEvents] using h
  | cons e es ih =>
      simpa [runStreamEvents] using ih _ (stepEvent_messages_ne_nil now st e h)

theorem runStreamEvents_append (now : Nat) (es es2 : List StreamEvent)
    (st : StreamState) :
    runStreamEvents now st (es ++ es2) =
      runStreamEvents now (runStreamEvents now st es) es2 := by
  induction es generalizing st with
  | nil => rfl
  | cons e es ih => simp [runStreamEvents, ih]

/-- C4 counterexample: a stream ending in a completed event whose snapshot
text is empty does not take the snapshot as final content — the `||`
fallback keeps the delta concatenation ("Hi"), so the final content does
not equal the completed snapshot's (empty) text. -/
theorem stream_empty_snapshot_cex :
    ((runStreamTurn [] "q"
        [StreamEvent.outputTextDelta "Hi",
         StreamEvent.responseCompleted ⟨[], ""⟩] 0).messages.getLast?).map
      Message.content = some "Hi" ∧
    ((runStreamTurn [] "q"
        [StreamEvent.outputTextDelta "Hi",
         StreamEvent.responseCompleted ⟨[], ""⟩] 0).messages.getLast?).map
      Message.content ≠ some (ModelResponse.mk ([] : List Item) "").output_text := by
  refine ⟨rfl, ?_⟩
  decide

/-- C4 (amended): for a streamed event sequence ending in a terminal
completed event whose snapshot text is non-empty, the final assistant
message content equals the snapshot's text, overriding whatever the
incremental delta concatenation produced (an empty snapshot text instead
leaves the concatenation in place); in particular deltas "Hel", "lo"
followed by completed text "Hello!" yield "Hello!". -/
theorem stream_completed_snapshot_wins (msgs : List Message) (input : String)
    (es : List StreamEvent) (r : ModelResponse) (now : Nat)
    (h : r.output_text ≠ "") :
    ((runStreamTurn msgs input (es ++ [StreamEvent.responseCompleted r])
        now).messages.getLast?).map Message.content = some r.output_text := by
  unfold runStreamTurn
  rw [runStreamEvents_append]
  have hne : (runStreamEvents now
      ⟨(msgs ++ [(⟨Role.user, input⟩ : Message)]) ++
         [(⟨Role.assistant, ""⟩ : Message)],
       pushTrace ([] : List (TraceStep TraceData))
         ⟨"stream-request", "Streaming response…", Status.inProgress, now,
          some (TraceData.reqInfo "gpt-5"
            (msgs ++ [(⟨Role.user, input⟩ : Message)]).length)⟩⟩ es).messages ≠ [] :=
    runStreamEvents_messages_ne_nil now es _ (by simp)
  generalize hst : runStreamEvents now
      ⟨(msgs ++ [(⟨Role.user, input⟩ : Message)]) ++
         [(⟨Role.assistant, ""⟩ : Message)],
       pushTrace ([] : List (TraceStep TraceData))
         ⟨"stream-request", "Streaming response…", Status.inProgress, now,
          some (TraceData.reqInfo "gpt-5"
            (msgs ++ [(⟨Role.user, input⟩ : Message)]).length)⟩⟩ es = st at hne ⊢
  simp only [runStreamEvents, stepEvent, updateLast_getLast?]
  cases hl : st.messages.getLast? with
  | none => exact absurd (List.getLast?_eq_none_iff.mp hl) hne
  | some m => simp [h]

/-- Witness for C4 (amended): the spec's scenario — deltas "Hel", "lo"
then completed text "Hello!" — produces final content "Hello!". -/
theorem stream_completed_snapshot_wins_witness :
    ((runStreamTurn [] "q"
        ([StreamEvent.outputTextDelta "Hel", StreamEvent.outputTextDelta "lo"] ++
          [StreamEvent.responseCompleted ⟨[], "Hello!"⟩])
        0).messages.getLast?).map Message.content = some "Hello!" :=
  stream_completed_snapshot_wins []
    "q" [StreamEvent.outputTextDelta "Hel", StreamEvent.outputTextDelta "lo"]
    ⟨[], "Hello!"⟩ 0 (by decide)

/-- The concatenation of a list of delta fragments. -/
def concatDeltas (ds : List String) : String :=
  ds.foldr (fun a b => a ++ b) ""

theorem runStream_deltas (now : Nat) (ds : List String) (st : StreamState) :
    (runStreamEvents now st (ds.map StreamEvent.outputTextDelta)).traceSteps =
      st.traceSteps ∧
    (runStreamEvents now st (ds.map StreamEvent.outputTextDelta)).messages.getLast? =
      st.messages.getLast?.map (fun m => ⟨m.role, m.content ++ concatDeltas ds⟩) := by
  induction ds generalizing st with
  | nil =>
      simp only [List.map_nil, runStreamEvents]
      refine ⟨trivial, ?_⟩
      cases st.messages.getLast? with
      | none => rfl
      | some m =>
          show some m = some ⟨m.role, m.content ++ concatDeltas []⟩
          rw [show concatDeltas [] = "" from rfl, String.append_empty]
  | cons d ds ih =>
      simp only [List.map_cons, runStreamEvents]
      have ih' := ih (stepEvent now st (StreamEvent.outputTextDelta d))
      refine ⟨ih'.1.trans rfl, ?_⟩
      rw [ih'.2]
      simp only [stepEvent, updateLast_getLast?, Option.map_map]
      cases st.messages.getLast? with
      | none => rfl
      | some m => simp [concatDeltas, String.append_assoc, Function.comp]

/-- C5 (amended): a streamed event sequence consisting of deltas only —
never emitting the terminal completed event — ends the turn as a silently
incomplete success: no Failed transition or error handling exists in the
code, the only ledger entry is the `stream-request` step still in
`in-progress` status (no error-status step is ever written), and the
in-progress message is left holding the concatenation of the deltas. -/
theorem dropped_stream_silent (msgs : List Message) (input : String)
    (ds : List String) (now : Nat) :
    (runStreamTurn msgs input (ds.map StreamEvent.outputTextDelta) now).traceSteps =
      [⟨"stream-request", "Streaming response…", Status.inProgress, now,
        some (TraceData.reqInfo "gpt-5" (msgs.length + 1))⟩] ∧
    ((runStreamTurn msgs input (ds.map StreamEvent.outputTextDelta)
        now).messages.getLast?).map Message.content = some (concatDeltas ds) ∧
    ∀ s ∈ (runStreamTurn msgs input (ds.map StreamEvent.outputTextDelta)
        now).traceSteps, s.status ≠ Status.error := by
  unfold runStreamTurn
  have h := runStream_deltas now ds
    ⟨(msgs ++ [(⟨Role.user, input⟩ : Message)]) ++
       [(⟨Role.assistant, ""⟩ : Message)],
     pushTrace ([] : List (TraceStep TraceData))
       ⟨"stream-request", "Streaming response…", Status.inProgress, now,
        some (TraceData.reqInfo "gpt-5"
          (msgs ++ [(⟨Role.user, input⟩ : Message)]).length)⟩⟩
  refine ⟨?_, ?_, ?_⟩
  · rw [h.1]
    simp [pushTrace]
  · rw [h.2]
    simp [List.getLast?_concat, String.empty_append]
  · rw [h.1]
    intro s hs
    simp only [pushTrace, List.mem_singleton] at hs
    subst hs
    simp

/-- C5 counterexample: the concrete dropped stream — deltas "par", "tial"
and no completed event — leaves the single trace step in `in-progress`
status (no error step, no Failed state) and the message content "partial",
a silently incomplete success rather than the error state the claim
requires. -/
theorem dropped_stream_no_error_step_cex :
    (runStreamTurn [] "tell me"
        [StreamEvent.outputTextDelta "par", StreamEvent.outputTextDelta "tial"]
        0).traceSteps.map TraceStep.status = [Status.inProgress] ∧
    ((runStreamTurn [] "tell me"
        [StreamEvent.outputTextDelta "par", StreamEvent.outputTextDelta "tial"]
        0).messages.getLast?).map Message.content = some "partial" ∧
    Status.inProgress ≠ Status.error := by
  refine ⟨rfl, rfl, ?_⟩
  decide
